import Mathlib

/-!
Shallow embedding of the review-calculator repository's algorithmic core:

* `ReviewCalc` embeds `src/utils/reviewCalculations.ts` (the optimizer imported
  by the application UI): greedy removal of worst reviews, tiers 1-4 only,
  with `preciseRound`-based comparisons.
* `CacheCalc` embeds the older optimizer revision concatenated into
  `src/utils/cache.ts` (lines 336-516 of that file): removal loop without
  rounding in the guard, a five-star removal branch, a 94 percent success-rate
  buffer pass, an additive variant `calculateAdditions`, and a selection rule
  between the two plans.
* `ServerCache` embeds the TTL cache class of `src/utils/cache.ts`.
* `SearchApi` embeds `performCascadingSearch` of `src/pages/api/search.ts`.

Modelling conventions: JavaScript numbers holding review counts are `Nat`;
ratings and targets are `Rat` (exact rationals standing for IEEE doubles; the
`Number.EPSILON` nudge inside `preciseRound` exists only to compensate binary
float error and is dropped in the exact model).  JavaScript division by zero
(`NaN` or `Infinity`) compares false with `<`, so guards that divide are
modelled with an explicit positivity conjunct.  `Date.now()` is an explicit
`now : Nat` argument; the mutable `Map` is a function `String -> Option entry`
threaded through each operation.
-/

/-- Review counts per star tier, mirroring the `ReviewBreakdown` interface of
`src/types/index.ts`. -/
structure ReviewBreakdown where
  one_star : Nat
  two_star : Nat
  three_star : Nat
  four_star : Nat
  five_star : Nat
deriving DecidableEq, Repr

/-- The `reviewsToRemove` record of a `CalculationResult`. -/
structure RemovedCounts where
  oneStar : Nat
  twoStar : Nat
  threeStar : Nat
  fourStar : Nat
  fiveStar : Nat
deriving DecidableEq, Repr

/-- The `reviewsToAdd` record of a `CalculationResult`. -/
structure AddedCounts where
  fiveStar : Nat
deriving DecidableEq, Repr

/-- Output record of the optimizer, mirroring `CalculationResult` of
`src/types/index.ts`. -/
structure CalculationResult where
  targetRating : Rat
  reviewsToRemove : RemovedCounts
  reviewsToAdd : AddedCounts
  projectedRating : Rat
  strategy : String
deriving DecidableEq, Repr

/-- Total review count of a breakdown (the `totalReviews` local). -/
def totalReviews (b : ReviewBreakdown) : Nat :=
  b.one_star + b.two_star + b.three_star + b.four_star + b.five_star

/-- Weighted star score of a breakdown (the `currentScore` local). -/
def currentScore (b : ReviewBreakdown) : Nat :=
  b.one_star * 1 + b.two_star * 2 + b.three_star * 3 + b.four_star * 4 +
    b.five_star * 5

/-- Total number of removed reviews in a removal record. -/
def RemovedCounts.total (r : RemovedCounts) : Nat :=
  r.oneStar + r.twoStar + r.threeStar + r.fourStar + r.fiveStar

/-- Weighted star score of the removed reviews. -/
def RemovedCounts.starSum (r : RemovedCounts) : Nat :=
  r.oneStar * 1 + r.twoStar * 2 + r.threeStar * 3 + r.fourStar * 4 +
    r.fiveStar * 5

/-- Mutable state of the removal loops: the surviving breakdown together with
the `tempScore`, `tempTotal` and `removed` locals of the source. -/
structure RemovalState where
  tempBreakdown : ReviewBreakdown
  tempScore : Nat
  tempTotal : Nat
  removed : RemovedCounts
deriving DecidableEq, Repr

namespace ReviewCalc

/-- `preciseRound` of `src/utils/reviewCalculations.ts`: round to `decimals`
decimal places.  The source adds `Number.EPSILON` before rounding purely to
absorb binary floating point representation error; on exact rationals that
nudge is dropped.  `Math.round` rounds halves up, as does Mathlib's `round`. -/
def preciseRound (num : Rat) (decimals : Nat) : Rat :=
  (round (num * 10 ^ decimals) : Int) / 10 ^ decimals

/-- `googleRound` of `src/utils/reviewCalculations.ts`: two decimal places. -/
def googleRound (rating : Rat) : Rat :=
  preciseRound rating 2

/-- The guard of the removal while loop:
`tempTotal > 0 && preciseRound(tempScore / tempTotal, 3) < targetRating`. -/
def loopGuard (targetRating : Rat) (s : RemovalState) : Prop :=
  0 < s.tempTotal ∧
    preciseRound ((s.tempScore : Rat) / (s.tempTotal : Rat)) 3 < targetRating

instance (targetRating : Rat) (s : RemovalState) :
    Decidable (loopGuard targetRating s) := by
  unfold loopGuard; infer_instance

/-- One-branch body: remove a single one-star review. -/
def removeOne (s : RemovalState) : RemovalState :=
  { tempBreakdown := { s.tempBreakdown with one_star := s.tempBreakdown.one_star - 1 }
    tempScore := s.tempScore - 1
    tempTotal := s.tempTotal - 1
    removed := { s.removed with oneStar := s.removed.oneStar + 1 } }

/-- Remove a single two-star review. -/
def removeTwo (s : RemovalState) : RemovalState :=
  { tempBreakdown := { s.tempBreakdown with two_star := s.tempBreakdown.two_star - 1 }
    tempScore := s.tempScore - 2
    tempTotal := s.tempTotal - 1
    removed := { s.removed with twoStar := s.removed.twoStar + 1 } }

/-- Remove a single three-star review. -/
def removeThree (s : RemovalState) : RemovalState :=
  { tempBreakdown := { s.tempBreakdown with three_star := s.tempBreakdown.three_star - 1 }
    tempScore := s.tempScore - 3
    tempTotal := s.tempTotal - 1
    removed := { s.removed with threeStar := s.removed.threeStar + 1 } }

/-- Remove a single four-star review. -/
def removeFour (s : RemovalState) : RemovalState :=
  { tempBreakdown := { s.tempBreakdown with four_star := s.tempBreakdown.four_star - 1 }
    tempScore := s.tempScore - 4
    tempTotal := s.tempTotal - 1
    removed := { s.removed with fourStar := s.removed.fourStar + 1 } }

/-- The removal while loop of `calculateMinimalRemovals` in
`src/utils/reviewCalculations.ts`.  Each iteration removes one review from the
lowest surviving tier among 1-4 and decrements `tempTotal`; the loop can run at
most `tempTotal` times, so calling it with `fuel := totalReviews breakdown`
simulates the unbounded while loop exactly (when the fuel is exhausted
`tempTotal` has reached zero and the guard is false anyway). -/
def removalLoop (targetRating : Rat) : Nat → RemovalState → RemovalState
  | 0, s => s
  | fuel + 1, s =>
    if loopGuard targetRating s then
      if 0 < s.tempBreakdown.one_star then
        removalLoop targetRating fuel (removeOne s)
      else if 0 < s.tempBreakdown.two_star then
        removalLoop targetRating fuel (removeTwo s)
      else if 0 < s.tempBreakdown.three_star then
        removalLoop targetRating fuel (removeThree s)
      else if 0 < s.tempBreakdown.four_star then
        removalLoop targetRating fuel (removeFour s)
      else s
    else s

/-- Initial loop state: a copy of the breakdown, the derived score and total,
and an all-zero `removed` record. -/
def initialState (breakdown : ReviewBreakdown) : RemovalState :=
  { tempBreakdown := breakdown
    tempScore := currentScore breakdown
    tempTotal := totalReviews breakdown
    removed := ⟨0, 0, 0, 0, 0⟩ }

/-- `calculateMinimalRemovals` of `src/utils/reviewCalculations.ts`. -/
def calculateMinimalRemovals (targetRating : Rat) (breakdown : ReviewBreakdown) :
    CalculationResult :=
  let s := removalLoop targetRating (totalReviews breakdown) (initialState breakdown)
  let finalRating : Rat :=
    if 0 < s.tempTotal then
      preciseRound ((s.tempScore : Rat) / (s.tempTotal : Rat)) 3
    else 0
  { targetRating := targetRating
    reviewsToRemove := s.removed
    reviewsToAdd := ⟨0⟩
    projectedRating := googleRound finalRating
    strategy := "remove" }

/-- `calculateReviewsToRemove` of `src/utils/reviewCalculations.ts`: computes
`totalReviews` and `currentScore` from the breakdown and returns the removal
plan; the `currentRating` parameter is never read. -/
def calculateReviewsToRemove (currentRating targetRating : Rat)
    (breakdown : ReviewBreakdown) : CalculationResult :=
  calculateMinimalRemovals targetRating breakdown

end ReviewCalc

namespace CacheCalc

/-- `googleRound` of the optimizer revision inside `src/utils/cache.ts`:
`Math.round(rating * 10) / 10`, one decimal place. -/
def googleRound (rating : Rat) : Rat :=
  (round (rating * 10) : Int) / 10

/-- Guard of this revision's removal while loop:
`tempTotal > 0 && tempScore / tempTotal < targetRating` (no rounding). -/
def loopGuard (targetRating : Rat) (s : RemovalState) : Prop :=
  0 < s.tempTotal ∧ (s.tempScore : Rat) / (s.tempTotal : Rat) < targetRating

instance (targetRating : Rat) (s : RemovalState) :
    Decidable (loopGuard targetRating s) := by
  unfold loopGuard; infer_instance

/-- Remove a single five-star review (this revision has a fifth branch). -/
def removeFive (s : RemovalState) : RemovalState :=
  { tempBreakdown := { s.tempBreakdown with five_star := s.tempBreakdown.five_star - 1 }
    tempScore := s.tempScore - 5
    tempTotal := s.tempTotal - 1
    removed := { s.removed with fiveStar := s.removed.fiveStar + 1 } }

/-- The main removal while loop of the `cache.ts` revision of
`calculateMinimalRemovals`: worst tier first, including a five-star branch.
As in `ReviewCalc.removalLoop`, `fuel := tempTotal` simulates the while loop
exactly because every iteration decrements `tempTotal`. -/
def removalLoop (targetRating : Rat) : Nat → RemovalState → RemovalState
  | 0, s => s
  | fuel + 1, s =>
    if loopGuard targetRating s then
      if 0 < s.tempBreakdown.one_star then
        removalLoop targetRating fuel (ReviewCalc.removeOne s)
      else if 0 < s.tempBreakdown.two_star then
        removalLoop targetRating fuel (ReviewCalc.removeTwo s)
      else if 0 < s.tempBreakdown.three_star then
        removalLoop targetRating fuel (ReviewCalc.removeThree s)
      else if 0 < s.tempBreakdown.four_star then
        removalLoop targetRating fuel (ReviewCalc.removeFour s)
      else if 0 < s.tempBreakdown.five_star then
        removalLoop targetRating fuel (removeFive s)
      else s
    else s

/-- The buffer while loop of the `cache.ts` revision: after the main loop it
removes up to `additionalRemovals` further reviews, worst tier first, while
`additionalRemoved < additionalRemovals && tempTotal > 0`.  Every iteration
increments `additionalRemoved`, so `fuel := additionalRemovals` simulates the
while loop exactly. -/
def bufferLoop (additionalRemovals : Nat) :
    Nat → Nat → RemovalState → RemovalState
  | 0, _, s => s
  | fuel + 1, additionalRemoved, s =>
    if additionalRemoved < additionalRemovals ∧ 0 < s.tempTotal then
      if 0 < s.tempBreakdown.one_star then
        bufferLoop additionalRemovals fuel (additionalRemoved + 1)
          (ReviewCalc.removeOne s)
      else if 0 < s.tempBreakdown.two_star then
        bufferLoop additionalRemovals fuel (additionalRemoved + 1)
          (ReviewCalc.removeTwo s)
      else if 0 < s.tempBreakdown.three_star then
        bufferLoop additionalRemovals fuel (additionalRemoved + 1)
          (ReviewCalc.removeThree s)
      else if 0 < s.tempBreakdown.four_star then
        bufferLoop additionalRemovals fuel (additionalRemoved + 1)
          (ReviewCalc.removeFour s)
      else if 0 < s.tempBreakdown.five_star then
        bufferLoop additionalRemovals fuel (additionalRemoved + 1)
          (removeFive s)
      else s
    else s

/-- `Math.ceil(totalRemovals / 0.94)` on exact rationals. -/
def bufferedRemovals (totalRemovals : Nat) : Nat :=
  (⌈(totalRemovals : Rat) / (94 / 100 : Rat)⌉).toNat

/-- `calculateMinimalRemovals` of the `cache.ts` revision: greedy loop, then a
94 percent success-rate buffer pass, then the projected rating (rounded to one
decimal by this revision's `googleRound`). -/
def calculateMinimalRemovals (targetRating : Rat) (breakdown : ReviewBreakdown) :
    CalculationResult :=
  let s1 := removalLoop targetRating (totalReviews breakdown)
    (ReviewCalc.initialState breakdown)
  let totalRemovals := s1.removed.total
  let additionalRemovals := bufferedRemovals totalRemovals - totalRemovals
  let s2 := bufferLoop additionalRemovals additionalRemovals 0 s1
  let finalRating : Rat :=
    if 0 < s2.tempTotal then (s2.tempScore : Rat) / (s2.tempTotal : Rat) else 0
  { targetRating := targetRating
    reviewsToRemove := s2.removed
    reviewsToAdd := ⟨0⟩
    projectedRating := googleRound finalRating
    strategy := "remove" }

/-- Guard of the additions while loop:
`(tempScore + n*5) / (tempTotal + n) < targetRating`.  In JavaScript a zero
denominator yields `NaN` (or `Infinity`), which compares false, so the model
adds the positivity conjunct explicitly. -/
def additionsGuard (tempScore tempTotal : Nat) (targetRating : Rat) (n : Nat) :
    Prop :=
  0 < tempTotal + n ∧
    ((tempScore + n * 5 : Nat) : Rat) / ((tempTotal + n : Nat) : Rat) <
      targetRating

instance (tempScore tempTotal : Nat) (targetRating : Rat) (n : Nat) :
    Decidable (additionsGuard tempScore tempTotal targetRating n) := by
  unfold additionsGuard; infer_instance

/-- The while loop of `calculateAdditions`: increment `neededFiveStars` while
the guard holds, breaking as soon as the counter exceeds 1000.  The recursion
happens only while `n + 1 <= 1000`, so any `fuel >= 1001 - n` simulates the
while loop exactly; `calculateAdditions` passes 1002. -/
def additionsLoop (tempScore tempTotal : Nat) (targetRating : Rat) :
    Nat → Nat → Nat
  | 0, n => n
  | fuel + 1, n =>
    if additionsGuard tempScore tempTotal targetRating n then
      if 1000 < n + 1 then n + 1
      else additionsLoop tempScore tempTotal targetRating fuel (n + 1)
    else n

/-- `calculateAdditions` of the `cache.ts` revision.  The unguarded final
division is `NaN` in JavaScript when `tempTotal + n = 0` (empty distribution);
in the rational model division by zero yields 0, which only affects the
degenerate all-zero distribution's `projectedRating`. -/
def calculateAdditions (targetRating : Rat) (breakdown : ReviewBreakdown) :
    CalculationResult :=
  let tempScore := currentScore breakdown
  let tempTotal := totalReviews breakdown
  let neededFiveStars := additionsLoop tempScore tempTotal targetRating 1002 0
  let finalRating : Rat :=
    ((tempScore + neededFiveStars * 5 : Nat) : Rat) /
      ((tempTotal + neededFiveStars : Nat) : Rat)
  { targetRating := targetRating
    reviewsToRemove := ⟨0, 0, 0, 0, 0⟩
    reviewsToAdd := ⟨neededFiveStars⟩
    projectedRating := googleRound finalRating
    strategy := "add" }

/-- `calculateReviewsToRemove` of the `cache.ts` revision: compute both plans
and return the removal plan exactly when
`totalRemovals <= totalAdditions && removalResult.projectedRating >= targetRating`,
otherwise the addition plan.  The `currentRating` parameter is never read. -/
def calculateReviewsToRemove (currentRating targetRating : Rat)
    (breakdown : ReviewBreakdown) : CalculationResult :=
  let removalResult := calculateMinimalRemovals targetRating breakdown
  let additionResult := calculateAdditions targetRating breakdown
  let totalRemovals := removalResult.reviewsToRemove.total
  let totalAdditions := additionResult.reviewsToAdd.fiveStar
  if totalRemovals ≤ totalAdditions ∧ targetRating ≤ removalResult.projectedRating
  then removalResult
  else additionResult

end CacheCalc

/-- A stored cache entry, mirroring `CacheEntry<T>` of `src/utils/cache.ts`. -/
structure CacheEntry (α : Type) where
  data : α
  timestamp : Nat
  expiresAt : Nat
deriving DecidableEq, Repr

/-- The private `Map<string, CacheEntry<any>>` of the `ServerCache` class,
modelled as a function from keys to optional entries. -/
def CacheMap (α : Type) : Type := String → Option (CacheEntry α)

namespace ServerCache

/-- `defaultTTL.business` (equal to `defaultTTL.geocoding`): 24 hours. -/
def defaultTTLbusiness : Nat := 24 * 60 * 60 * 1000

/-- Effective TTL of `set`: the source computes `ttl || this.defaultTTL.business`,
so an omitted argument and an explicit 0 (falsy in JavaScript) both fall back
to the 24-hour default. -/
def effectiveTTL (ttl : Option Nat) : Nat :=
  match ttl with
  | none => defaultTTLbusiness
  | some t => if t = 0 then defaultTTLbusiness else t

/-- `ServerCache.set`: store the payload with `timestamp = now` and
`expiresAt = now + (ttl || default)`, overwriting unconditionally. -/
def set {α : Type} (m : CacheMap α) (now : Nat) (key : String) (data : α)
    (ttl : Option Nat) : CacheMap α :=
  fun k => if k = key then some ⟨data, now, now + effectiveTTL ttl⟩ else m k

/-- `Map.delete` on the underlying map. -/
def mapDelete {α : Type} (m : CacheMap α) (key : String) : CacheMap α :=
  fun k => if k = key then none else m k

/-- `ServerCache.get`: returns the payload and the updated map.  A missing
entry yields `none`; an entry with `Date.now() > expiresAt` is deleted from
the map (lazy expiry) and `none` is returned; otherwise the payload. -/
def get {α : Type} (m : CacheMap α) (now : Nat) (key : String) :
    Option α × CacheMap α :=
  match m key with
  | none => (none, m)
  | some entry =>
    if entry.expiresAt < now then (none, mapDelete m key)
    else (some entry.data, m)

/-- `ServerCache.has`: same expiry logic as `get`, returning a Boolean. -/
def has {α : Type} (m : CacheMap α) (now : Nat) (key : String) :
    Bool × CacheMap α :=
  match m key with
  | none => (false, m)
  | some entry =>
    if entry.expiresAt < now then (false, mapDelete m key)
    else (true, m)

/-- Normalization used by the key builders: `.toLowerCase().trim()`. -/
def normalizeKeyPart (s : String) : String :=
  s.toLower.trim

/-- `generateGeocodingKey`. -/
def generateGeocodingKey (postalCode : String) : String :=
  "geo:" ++ normalizeKeyPart postalCode

/-- `generateBusinessSearchKey`. -/
def generateBusinessSearchKey (searchQuery postalCode : String) : String :=
  "search:" ++ normalizeKeyPart searchQuery ++ ":" ++ normalizeKeyPart postalCode

/-- `generateBusinessDataKey`. -/
def generateBusinessDataKey (businessName postalCode : String) : String :=
  "biz:" ++ normalizeKeyPart businessName ++ ":" ++ normalizeKeyPart postalCode

/-- `generateRatingKey`: opaque identifier, unmodified. -/
def generateRatingKey (place_id : String) : String :=
  "rating:" ++ place_id

end ServerCache

namespace SearchApi

/-- A request body sent to the upstream provider, keeping only the field that
distinguishes the three strategies of the cascade (`title`, `description`, or
`categories`). -/
inductive SearchRequest where
  | title (q : String)
  | description (q : String)
  | category (cats : List String)
deriving DecidableEq, Repr

/-- The record `{ businesses, searchType }` built by `performCascadingSearch`. -/
structure SearchOutcome (β : Type) where
  businesses : List β
  searchType : String
deriving DecidableEq, Repr

/-- The `categoryMappings` table of `src/pages/api/search.ts`, in insertion
order (JavaScript object entries preserve it). -/
def categoryMappings : List (String × List String) :=
  [("pizza", ["pizza_restaurant"]),
   ("restaurant", ["restaurant"]),
   ("cafe", ["cafe"]),
   ("coffee", ["coffee_shop", "cafe"]),
   ("hotel", ["hotel"]),
   ("bar", ["bar"]),
   ("shop", ["store"]),
   ("bakery", ["bakery"]),
   ("pharmacy", ["pharmacy"]),
   ("bank", ["bank"]),
   ("gym", ["gym"]),
   ("fitness", ["gym"])]

/-- Whether `needle` occurs at the start of `hay` (character lists). -/
def begMatch : List Char → List Char → Bool
  | [], _ => true
  | _ :: _, [] => false
  | a :: as, b :: bs => a = b && begMatch as bs

/-- JavaScript `String.prototype.includes`: `needle` occurs somewhere inside
`hay`. -/
def hasSub : List Char → List Char → Bool
  | [], needle => begMatch needle []
  | c :: t, needle => begMatch needle (c :: t) || hasSub t needle

/-- TTL used when caching a non-empty cascade result: 24 hours. -/
def fullResultTTL : Nat := 24 * 60 * 60 * 1000

/-- TTL used when caching an empty cascade result: 1 hour. -/
def emptyResultTTL : Nat := 60 * 60 * 1000

/-- The category phase of the cascade: walk `categoryMappings` in order; for
every term contained in the lowercased query, call the upstream with that
term's categories; an upstream error or an empty result list falls through to
the next term.  When the table is exhausted, cache and return the empty
outcome (`searchType = "none"`) with the short TTL. -/
def categoryPhase {β : Type} (oracle : SearchRequest → Except Unit (List β))
    (m : CacheMap (SearchOutcome β)) (now : Nat) (cacheKey : String)
    (queryLower : List Char) :
    List (String × List String) → SearchOutcome β × CacheMap (SearchOutcome β)
  | [] =>
    let result : SearchOutcome β := ⟨[], "none"⟩
    (result, ServerCache.set m now cacheKey result (some emptyResultTTL))
  | (term, cats) :: rest =>
    if hasSub queryLower term.data then
      match oracle (.category cats) with
      | .ok businesses =>
        if 0 < businesses.length then
          let result : SearchOutcome β := ⟨businesses, "category"⟩
          (result, ServerCache.set m now cacheKey result (some fullResultTTL))
        else categoryPhase oracle m now cacheKey queryLower rest
      | .error _ => categoryPhase oracle m now cacheKey queryLower rest
    else categoryPhase oracle m now cacheKey queryLower rest

/-- `performCascadingSearch` of `src/pages/api/search.ts`.  The upstream
(`makeDataForSeoRequest` followed by `extractBusinesses`) is abstracted as an
`oracle` returning either a provider error or the extracted business list.
Unless `bypassCache` is set, a cached outcome (JavaScript object truthiness:
any stored record) short-circuits the cascade.  Then: title search, then
description search (each `try`/`catch` swallowing upstream errors and each
caching only non-empty results, for 24 hours), then the category phase. -/
def performCascadingSearch {β : Type}
    (oracle : SearchRequest → Except Unit (List β))
    (m : CacheMap (SearchOutcome β)) (now : Nat) (query postalCode : String)
    (bypassCache : Bool) : SearchOutcome β × CacheMap (SearchOutcome β) :=
  let cacheKey := ServerCache.generateBusinessSearchKey query postalCode
  let checked :=
    if bypassCache then (none, m) else ServerCache.get m now cacheKey
  match checked with
  | (some cachedResult, m0) => (cachedResult, m0)
  | (none, m0) =>
    let afterTitle : Option (SearchOutcome β × CacheMap (SearchOutcome β)) :=
      match oracle (.title query) with
      | .ok businesses =>
        if 0 < businesses.length then
          let result : SearchOutcome β := ⟨businesses, "title"⟩
          some (result, ServerCache.set m0 now cacheKey result (some fullResultTTL))
        else none
      | .error _ => none
    match afterTitle with
    | some out => out
    | none =>
      let afterDescription :
          Option (SearchOutcome β × CacheMap (SearchOutcome β)) :=
        match oracle (.description query) with
        | .ok businesses =>
          if 0 < businesses.length then
            let result : SearchOutcome β := ⟨businesses, "description"⟩
            some (result, ServerCache.set m0 now cacheKey result (some fullResultTTL))
          else none
        | .error _ => none
      match afterDescription with
      | some out => out
      | none =>
        categoryPhase oracle m0 now cacheKey query.toLower.data categoryMappings

end SearchApi

/-!
Claim-side notions for the minimality and monotonicity properties: an
alternative removal plan is any per-tier removal vector that fits inside the
original breakdown; it reaches the target when at least one review survives
and the surviving average, compared the way the optimizer compares (rounded to
three decimals), is at least the target.
-/

/-- `r` removes at most the available reviews of each tier of `b`. -/
def ValidRemoval (r : RemovedCounts) (b : ReviewBreakdown) : Prop :=
  r.oneStar ≤ b.one_star ∧ r.twoStar ≤ b.two_star ∧ r.threeStar ≤ b.three_star ∧
    r.fourStar ≤ b.four_star ∧ r.fiveStar ≤ b.five_star

instance (r : RemovedCounts) (b : ReviewBreakdown) :
    Decidable (ValidRemoval r b) := by
  unfold ValidRemoval; infer_instance

/-- After applying `r` to `b`, at least one review survives and the surviving
average reaches `target` under the optimizer's three-decimal comparison. -/
def ReachesTarget (b : ReviewBreakdown) (r : RemovedCounts) (target : Rat) :
    Prop :=
  r.total < totalReviews b ∧
    target ≤ ReviewCalc.preciseRound
      (((currentScore b - r.starSum : Nat) : Rat) /
        ((totalReviews b - r.total : Nat) : Rat)) 3

instance (b : ReviewBreakdown) (r : RemovedCounts) (target : Rat) :
    Decidable (ReachesTarget b r target) := by
  unfold ReachesTarget; infer_instance

/-- Loop invariant of the greedy removal loop of
`src/utils/reviewCalculations.ts`: the removed counts and the surviving
breakdown partition the original one, `tempScore`/`tempTotal` stay in sync
with the surviving breakdown, no five-star review is ever removed, and the
removed counts form the greedy pattern (all removals are taken from the lowest
tiers first), so that they are exactly the `removed.total` cheapest reviews of
the original breakdown. -/
def GreedyInv (b0 : ReviewBreakdown) (s : RemovalState) : Prop :=
  s.tempBreakdown.one_star + s.removed.oneStar = b0.one_star ∧
  s.tempBreakdown.two_star + s.removed.twoStar = b0.two_star ∧
  s.tempBreakdown.three_star + s.removed.threeStar = b0.three_star ∧
  s.tempBreakdown.four_star + s.removed.fourStar = b0.four_star ∧
  s.tempBreakdown.five_star + s.removed.fiveStar = b0.five_star ∧
  s.tempTotal = totalReviews s.tempBreakdown ∧
  s.tempScore = currentScore s.tempBreakdown ∧
  s.removed.fiveStar = 0 ∧
  s.removed.oneStar = min s.removed.total b0.one_star ∧
  s.removed.twoStar = min (s.removed.total - s.removed.oneStar) b0.two_star ∧
  s.removed.threeStar =
    min (s.removed.total - s.removed.oneStar - s.removed.twoStar) b0.three_star

theorem greedyInv_init (b : ReviewBreakdown) :
    GreedyInv b (ReviewCalc.initialState b) := by
  dsimp only [GreedyInv, ReviewCalc.initialState, RemovedCounts.total,
    totalReviews, currentScore]
  omega

theorem greedyInv_removeOne (b0 : ReviewBreakdown) (s : RemovalState)
    (h : GreedyInv b0 s) (h1 : 0 < s.tempBreakdown.one_star) :
    GreedyInv b0 (ReviewCalc.removeOne s) := by
  dsimp only [GreedyInv, ReviewCalc.removeOne, RemovedCounts.total,
    totalReviews, currentScore] at h ⊢
  omega

theorem greedyInv_removeTwo (b0 : ReviewBreakdown) (s : RemovalState)
    (h : GreedyInv b0 s) (h1 : s.tempBreakdown.one_star = 0)
    (h2 : 0 < s.tempBreakdown.two_star) :
    GreedyInv b0 (ReviewCalc.removeTwo s) := by
  dsimp only [GreedyInv, ReviewCalc.removeTwo, RemovedCounts.total,
    totalReviews, currentScore] at h ⊢
  omega

theorem greedyInv_removeThree (b0 : ReviewBreakdown) (s : RemovalState)
    (h : GreedyInv b0 s) (h1 : s.tempBreakdown.one_star = 0)
    (h2 : s.tempBreakdown.two_star = 0) (h3 : 0 < s.tempBreakdown.three_star) :
    GreedyInv b0 (ReviewCalc.removeThree s) := by
  dsimp only [GreedyInv, ReviewCalc.removeThree, RemovedCounts.total,
    totalReviews, currentScore] at h ⊢
  omega

theorem greedyInv_removeFour (b0 : ReviewBreakdown) (s : RemovalState)
    (h : GreedyInv b0 s) (h1 : s.tempBreakdown.one_star = 0)
    (h2 : s.tempBreakdown.two_star = 0) (h3 : s.tempBreakdown.three_star = 0)
    (h4 : 0 < s.tempBreakdown.four_star) :
    GreedyInv b0 (ReviewCalc.removeFour s) := by
  dsimp only [GreedyInv, ReviewCalc.removeFour, RemovedCounts.total,
    totalReviews, currentScore] at h ⊢
  omega

/-- Exchange argument: a greedy-shaped removal record removes the cheapest
reviews, so any valid removal vector of the same size removes at least as much
star weight. -/
theorem starSum_le_of_greedy_shape (b0 : ReviewBreakdown) (rem r : RemovedCounts)
    (hrem1 : rem.oneStar = min rem.total b0.one_star)
    (hrem2 : rem.twoStar = min (rem.total - rem.oneStar) b0.two_star)
    (hrem3 : rem.threeStar =
      min (rem.total - rem.oneStar - rem.twoStar) b0.three_star)
    (hrem4 : rem.fourStar ≤ b0.four_star)
    (hrem5 : rem.fiveStar = 0)
    (hv : ValidRemoval r b0) (heq : rem.total = r.total) :
    rem.starSum ≤ r.starSum := by
  simp only [ValidRemoval] at hv
  simp only [RemovedCounts.total, RemovedCounts.starSum] at *
  omega

theorem removeOne_removed_total (s : RemovalState) :
    (ReviewCalc.removeOne s).removed.total = s.removed.total + 1 := by
  dsimp only [ReviewCalc.removeOne, RemovedCounts.total]; omega

theorem removeTwo_removed_total (s : RemovalState) :
    (ReviewCalc.removeTwo s).removed.total = s.removed.total + 1 := by
  dsimp only [ReviewCalc.removeTwo, RemovedCounts.total]; omega

theorem removeThree_removed_total (s : RemovalState) :
    (ReviewCalc.removeThree s).removed.total = s.removed.total + 1 := by
  dsimp only [ReviewCalc.removeThree, RemovedCounts.total]; omega

theorem removeFour_removed_total (s : RemovalState) :
    (ReviewCalc.removeFour s).removed.total = s.removed.total + 1 := by
  dsimp only [ReviewCalc.removeFour, RemovedCounts.total]; omega

theorem removeFive_removed_total (s : RemovalState) :
    (CacheCalc.removeFive s).removed.total = s.removed.total + 1 := by
  dsimp only [CacheCalc.removeFive, RemovedCounts.total]; omega

namespace ReviewCalc

theorem removalLoop_succ_false (targetRating : Rat) (fuel : Nat)
    (s : RemovalState) (hg : ¬ loopGuard targetRating s) :
    removalLoop targetRating (fuel + 1) s = s := by
  rw [removalLoop, if_neg hg]

theorem removalLoop_succ_one (targetRating : Rat) (fuel : Nat)
    (s : RemovalState) (hg : loopGuard targetRating s)
    (h1 : 0 < s.tempBreakdown.one_star) :
    removalLoop targetRating (fuel + 1) s =
      removalLoop targetRating fuel (removeOne s) := by
  rw [removalLoop, if_pos hg, if_pos h1]

theorem removalLoop_succ_two (targetRating : Rat) (fuel : Nat)
    (s : RemovalState) (hg : loopGuard targetRating s)
    (h1 : ¬ 0 < s.tempBreakdown.one_star)
    (h2 : 0 < s.tempBreakdown.two_star) :
    removalLoop targetRating (fuel + 1) s =
      removalLoop targetRating fuel (removeTwo s) := by
  rw [removalLoop, if_pos hg, if_neg h1, if_pos h2]

theorem removalLoop_succ_three (targetRating : Rat) (fuel : Nat)
    (s : RemovalState) (hg : loopGuard targetRating s)
    (h1 : ¬ 0 < s.tempBreakdown.one_star)
    (h2 : ¬ 0 < s.tempBreakdown.two_star)
    (h3 : 0 < s.tempBreakdown.three_star) :
    removalLoop targetRating (fuel + 1) s =
      removalLoop targetRating fuel (removeThree s) := by
  rw [removalLoop, if_pos hg, if_neg h1, if_neg h2, if_pos h3]

theorem removalLoop_succ_four (targetRating : Rat) (fuel : Nat)
    (s : RemovalState) (hg : loopGuard targetRating s)
    (h1 : ¬ 0 < s.tempBreakdown.one_star)
    (h2 : ¬ 0 < s.tempBreakdown.two_star)
    (h3 : ¬ 0 < s.tempBreakdown.three_star)
    (h4 : 0 < s.tempBreakdown.four_star) :
    removalLoop targetRating (fuel + 1) s =
      removalLoop targetRating fuel (removeFour s) := by
  rw [removalLoop, if_pos hg, if_neg h1, if_neg h2, if_neg h3, if_pos h4]

theorem removalLoop_succ_exhausted (targetRating : Rat) (fuel : Nat)
    (s : RemovalState) (hg : loopGuard targetRating s)
    (h1 : ¬ 0 < s.tempBreakdown.one_star)
    (h2 : ¬ 0 < s.tempBreakdown.two_star)
    (h3 : ¬ 0 < s.tempBreakdown.three_star)
    (h4 : ¬ 0 < s.tempBreakdown.four_star) :
    removalLoop targetRating (fuel + 1) s = s := by
  rw [removalLoop, if_pos hg, if_neg h1, if_neg h2, if_neg h3, if_neg h4]

/-- The greedy loop preserves the invariant and can only grow the removal
count; proved together by induction on the fuel. -/
theorem removalLoop_inv (b0 : ReviewBreakdown) (targetRating : Rat) :
    ∀ (fuel : Nat) (s : RemovalState), GreedyInv b0 s →
      GreedyInv b0 (removalLoop targetRating fuel s) ∧
        s.removed.total ≤ (removalLoop targetRating fuel s).removed.total := by
  intro fuel
  induction fuel with
  | zero => intro s hInv; exact ⟨hInv, le_refl _⟩
  | succ fuel ih =>
    intro s hInv
    by_cases hg : loopGuard targetRating s
    · by_cases h1 : 0 < s.tempBreakdown.one_star
      · rw [removalLoop_succ_one targetRating fuel s hg h1]
        have := ih (removeOne s) (greedyInv_removeOne b0 s hInv h1)
        exact ⟨this.1, by have h := this.2; rw [removeOne_removed_total] at h; omega⟩
      · by_cases h2 : 0 < s.tempBreakdown.two_star
        · rw [removalLoop_succ_two targetRating fuel s hg h1 h2]
          have := ih (removeTwo s)
            (greedyInv_removeTwo b0 s hInv (by omega) h2)
          exact ⟨this.1, by have h := this.2; rw [removeTwo_removed_total] at h; omega⟩
        · by_cases h3 : 0 < s.tempBreakdown.three_star
          · rw [removalLoop_succ_three targetRating fuel s hg h1 h2 h3]
            have := ih (removeThree s)
              (greedyInv_removeThree b0 s hInv (by omega) (by omega) h3)
            exact ⟨this.1, by have h := this.2; rw [removeThree_removed_total] at h; omega⟩
          · by_cases h4 : 0 < s.tempBreakdown.four_star
            · rw [removalLoop_succ_four targetRating fuel s hg h1 h2 h3 h4]
              have := ih (removeFour s)
                (greedyInv_removeFour b0 s hInv (by omega) (by omega) (by omega) h4)
              exact ⟨this.1, by have h := this.2; rw [removeFour_removed_total] at h; omega⟩
            · rw [removalLoop_succ_exhausted targetRating fuel s hg h1 h2 h3 h4]
              exact ⟨hInv, le_refl _⟩
    · rw [removalLoop_succ_false targetRating fuel s hg]
      exact ⟨hInv, le_refl _⟩

end ReviewCalc

/-- `preciseRound` is monotone in its argument. -/
theorem preciseRound_mono (d : Nat) {x y : Rat} (h : x ≤ y) :
    ReviewCalc.preciseRound x d ≤ ReviewCalc.preciseRound y d := by
  unfold ReviewCalc.preciseRound
  have h10 : (0 : Rat) < 10 ^ d := by positivity
  rw [div_le_div_iff_of_pos_right h10]
  have : round (x * 10 ^ d) ≤ round (y * 10 ^ d) := by
    rw [round_eq, round_eq]
    exact Int.floor_le_floor (by nlinarith)
  exact_mod_cast this

/-- Key step for minimality: whenever the greedy loop still satisfies its
guard, the reviews it has removed so far cannot already account for a plan
that reaches the target — any valid plan `r` that reaches the target removes
strictly more reviews than the current greedy state.  Combined with the
invariant, the final greedy count never exceeds the size of any reaching
plan. -/
theorem removalLoop_min (b0 : ReviewBreakdown) (targetRating : Rat)
    (r : RemovedCounts) (hv : ValidRemoval r b0)
    (hr : ReachesTarget b0 r targetRating) :
    ∀ (fuel : Nat) (s : RemovalState), GreedyInv b0 s →
      s.removed.total ≤ r.total →
      (ReviewCalc.removalLoop targetRating fuel s).removed.total ≤ r.total := by
  intro fuel
  induction fuel with
  | zero =>
    intro s _ hle
    simpa only [ReviewCalc.removalLoop] using hle
  | succ fuel ih =>
    intro s hInv hle
    by_cases hg : ReviewCalc.loopGuard targetRating s
    · have hne : s.removed.total ≠ r.total := by
        intro heq
        obtain ⟨hpos, hlt⟩ := hg
        obtain ⟨hrpos, hrge⟩ := hr
        obtain ⟨e1, e2, e3, e4, e5, etot, esc, efive, m1, m2, m3⟩ := hInv
        have hvr := hv
        simp only [ValidRemoval] at hvr
        have hT : s.tempTotal + s.removed.total = totalReviews b0 := by
          simp only [totalReviews, currentScore, RemovedCounts.total] at *
          omega
        have hS : s.tempScore + s.removed.starSum = currentScore b0 := by
          simp only [totalReviews, currentScore, RemovedCounts.total,
            RemovedCounts.starSum] at *
          omega
        have hsum : s.removed.starSum ≤ r.starSum :=
          starSum_le_of_greedy_shape b0 s.removed r m1 m2 m3 (by omega) efive hv heq
        have hden : totalReviews b0 - r.total = s.tempTotal := by omega
        have hnum : currentScore b0 - r.starSum ≤ s.tempScore := by omega
        have hcast :
            ((currentScore b0 - r.starSum : Nat) : Rat) /
                ((totalReviews b0 - r.total : Nat) : Rat) ≤
              (s.tempScore : Rat) / (s.tempTotal : Rat) := by
          rw [hden]
          exact div_le_div_of_nonneg_right (by exact_mod_cast hnum)
            (Nat.cast_nonneg _)
        have hmono := preciseRound_mono 3 hcast
        linarith
      have hlt' : s.removed.total < r.total := lt_of_le_of_ne hle hne
      by_cases h1 : 0 < s.tempBreakdown.one_star
      · rw [ReviewCalc.removalLoop_succ_one targetRating fuel s hg h1]
        exact ih _ (greedyInv_removeOne b0 s hInv h1)
          (by rw [removeOne_removed_total]; omega)
      · by_cases h2 : 0 < s.tempBreakdown.two_star
        · rw [ReviewCalc.removalLoop_succ_two targetRating fuel s hg h1 h2]
          exact ih _ (greedyInv_removeTwo b0 s hInv (by omega) h2)
            (by rw [removeTwo_removed_total]; omega)
        · by_cases h3 : 0 < s.tempBreakdown.three_star
          · rw [ReviewCalc.removalLoop_succ_three targetRating fuel s hg h1 h2 h3]
            exact ih _ (greedyInv_removeThree b0 s hInv (by omega) (by omega) h3)
              (by rw [removeThree_removed_total]; omega)
          · by_cases h4 : 0 < s.tempBreakdown.four_star
            · rw [ReviewCalc.removalLoop_succ_four targetRating fuel s hg h1 h2 h3 h4]
              exact ih _
                (greedyInv_removeFour b0 s hInv (by omega) (by omega) (by omega) h4)
                (by rw [removeFour_removed_total]; omega)
            · rw [ReviewCalc.removalLoop_succ_exhausted targetRating fuel s hg h1 h2 h3 h4]
              exact hle
    · rw [ReviewCalc.removalLoop_succ_false targetRating fuel s hg]
      exact hle

/-- The greedy loop never un-removes: the removal count of the final state is
at least that of the starting state (no invariant needed). -/
theorem removalLoop_total_le (t : Rat) :
    ∀ (fuel : Nat) (s : RemovalState),
      s.removed.total ≤ (ReviewCalc.removalLoop t fuel s).removed.total := by
  intro fuel
  induction fuel with
  | zero => intro s; exact le_refl _
  | succ fuel ih =>
    intro s
    by_cases hg : ReviewCalc.loopGuard t s
    · by_cases h1 : 0 < s.tempBreakdown.one_star
      · rw [ReviewCalc.removalLoop_succ_one t fuel s hg h1]
        have := ih (ReviewCalc.removeOne s)
        rw [removeOne_removed_total] at this; omega
      · by_cases h2 : 0 < s.tempBreakdown.two_star
        · rw [ReviewCalc.removalLoop_succ_two t fuel s hg h1 h2]
          have := ih (ReviewCalc.removeTwo s)
          rw [removeTwo_removed_total] at this; omega
        · by_cases h3 : 0 < s.tempBreakdown.three_star
          · rw [ReviewCalc.removalLoop_succ_three t fuel s hg h1 h2 h3]
            have := ih (ReviewCalc.removeThree s)
            rw [removeThree_removed_total] at this; omega
          · by_cases h4 : 0 < s.tempBreakdown.four_star
            · rw [ReviewCalc.removalLoop_succ_four t fuel s hg h1 h2 h3 h4]
              have := ih (ReviewCalc.removeFour s)
              rw [removeFour_removed_total] at this; omega
            · rw [ReviewCalc.removalLoop_succ_exhausted t fuel s hg h1 h2 h3 h4]
    · rw [ReviewCalc.removalLoop_succ_false t fuel s hg]

/-- Raising the target can only lengthen the greedy loop's run: the guard for
the lower target implies the guard for the higher one, and the branch taken
does not depend on the target. -/
theorem removalLoop_total_target_mono (t1 t2 : Rat) (h12 : t1 ≤ t2) :
    ∀ (fuel : Nat) (s : RemovalState),
      (ReviewCalc.removalLoop t1 fuel s).removed.total ≤
        (ReviewCalc.removalLoop t2 fuel s).removed.total := by
  intro fuel
  induction fuel with
  | zero => intro s; exact le_refl _
  | succ fuel ih =>
    intro s
    by_cases hg1 : ReviewCalc.loopGuard t1 s
    · have hg2 : ReviewCalc.loopGuard t2 s := ⟨hg1.1, lt_of_lt_of_le hg1.2 h12⟩
      by_cases h1 : 0 < s.tempBreakdown.one_star
      · rw [ReviewCalc.removalLoop_succ_one t1 fuel s hg1 h1,
          ReviewCalc.removalLoop_succ_one t2 fuel s hg2 h1]
        exact ih _
      · by_cases h2 : 0 < s.tempBreakdown.two_star
        · rw [ReviewCalc.removalLoop_succ_two t1 fuel s hg1 h1 h2,
            ReviewCalc.removalLoop_succ_two t2 fuel s hg2 h1 h2]
          exact ih _
        · by_cases h3 : 0 < s.tempBreakdown.three_star
          · rw [ReviewCalc.removalLoop_succ_three t1 fuel s hg1 h1 h2 h3,
              ReviewCalc.removalLoop_succ_three t2 fuel s hg2 h1 h2 h3]
            exact ih _
          · by_cases h4 : 0 < s.tempBreakdown.four_star
            · rw [ReviewCalc.removalLoop_succ_four t1 fuel s hg1 h1 h2 h3 h4,
                ReviewCalc.removalLoop_succ_four t2 fuel s hg2 h1 h2 h3 h4]
              exact ih _
            · rw [ReviewCalc.removalLoop_succ_exhausted t1 fuel s hg1 h1 h2 h3 h4,
                ReviewCalc.removalLoop_succ_exhausted t2 fuel s hg2 h1 h2 h3 h4]
    · rw [ReviewCalc.removalLoop_succ_false t1 fuel s hg1]
      exact removalLoop_total_le t2 (fuel + 1) s

namespace CacheCalc

theorem cLoop_succ_false (targetRating : Rat) (fuel : Nat)
    (s : RemovalState) (hg : ¬ loopGuard targetRating s) :
    removalLoop targetRating (fuel + 1) s = s := by
  rw [removalLoop, if_neg hg]

theorem cLoop_succ_one (targetRating : Rat) (fuel : Nat)
    (s : RemovalState) (hg : loopGuard targetRating s)
    (h1 : 0 < s.tempBreakdown.one_star) :
    removalLoop targetRating (fuel + 1) s =
      removalLoop targetRating fuel (ReviewCalc.removeOne s) := by
  rw [removalLoop, if_pos hg, if_pos h1]

theorem cLoop_succ_two (targetRating : Rat) (fuel : Nat)
    (s : RemovalState) (hg : loopGuard targetRating s)
    (h1 : ¬ 0 < s.tempBreakdown.one_star)
    (h2 : 0 < s.tempBreakdown.two_star) :
    removalLoop targetRating (fuel + 1) s =
      removalLoop targetRating fuel (ReviewCalc.removeTwo s) := by
  rw [removalLoop, if_pos hg, if_neg h1, if_pos h2]

theorem cLoop_succ_three (targetRating : Rat) (fuel : Nat)
    (s : RemovalState) (hg : loopGuard targetRating s)
    (h1 : ¬ 0 < s.tempBreakdown.one_star)
    (h2 : ¬ 0 < s.tempBreakdown.two_star)
    (h3 : 0 < s.tempBreakdown.three_star) :
    removalLoop targetRating (fuel + 1) s =
      removalLoop targetRating fuel (ReviewCalc.removeThree s) := by
  rw [removalLoop, if_pos hg, if_neg h1, if_neg h2, if_pos h3]

theorem cLoop_succ_four (targetRating : Rat) (fuel : Nat)
    (s : RemovalState) (hg : loopGuard targetRating s)
    (h1 : ¬ 0 < s.tempBreakdown.one_star)
    (h2 : ¬ 0 < s.tempBreakdown.two_star)
    (h3 : ¬ 0 < s.tempBreakdown.three_star)
    (h4 : 0 < s.tempBreakdown.four_star) :
    removalLoop targetRating (fuel + 1) s =
      removalLoop targetRating fuel (ReviewCalc.removeFour s) := by
  rw [removalLoop, if_pos hg, if_neg h1, if_neg h2, if_neg h3, if_pos h4]

theorem cLoop_succ_five (targetRating : Rat) (fuel : Nat)
    (s : RemovalState) (hg : loopGuard targetRating s)
    (h1 : ¬ 0 < s.tempBreakdown.one_star)
    (h2 : ¬ 0 < s.tempBreakdown.two_star)
    (h3 : ¬ 0 < s.tempBreakdown.three_star)
    (h4 : ¬ 0 < s.tempBreakdown.four_star)
    (h5 : 0 < s.tempBreakdown.five_star) :
    removalLoop targetRating (fuel + 1) s =
      removalLoop targetRating fuel (removeFive s) := by
  rw [removalLoop, if_pos hg, if_neg h1, if_neg h2, if_neg h3, if_neg h4,
    if_pos h5]

theorem cLoop_succ_exhausted (targetRating : Rat) (fuel : Nat)
    (s : RemovalState) (hg : loopGuard targetRating s)
    (h1 : ¬ 0 < s.tempBreakdown.one_star)
    (h2 : ¬ 0 < s.tempBreakdown.two_star)
    (h3 : ¬ 0 < s.tempBreakdown.three_star)
    (h4 : ¬ 0 < s.tempBreakdown.four_star)
    (h5 : ¬ 0 < s.tempBreakdown.five_star) :
    removalLoop targetRating (fuel + 1) s = s := by
  rw [removalLoop, if_pos hg, if_neg h1, if_neg h2, if_neg h3, if_neg h4,
    if_neg h5]

end CacheCalc

/-- Book-keeping invariant shared by the two loops of the `cache.ts` revision:
`tempTotal` stays in sync with the surviving breakdown, and removals are
conserved against the fixed original total `T`. -/
def TotalSync (T : Nat) (s : RemovalState) : Prop :=
  s.tempTotal = totalReviews s.tempBreakdown ∧
    s.tempTotal + s.removed.total = T

theorem totalSync_removeOne (T : Nat) (s : RemovalState) (h : TotalSync T s)
    (h1 : 0 < s.tempBreakdown.one_star) :
    TotalSync T (ReviewCalc.removeOne s) := by
  dsimp only [TotalSync, ReviewCalc.removeOne, RemovedCounts.total,
    totalReviews] at h ⊢
  omega

theorem totalSync_removeTwo (T : Nat) (s : RemovalState) (h : TotalSync T s)
    (h2 : 0 < s.tempBreakdown.two_star) :
    TotalSync T (ReviewCalc.removeTwo s) := by
  dsimp only [TotalSync, ReviewCalc.removeTwo, RemovedCounts.total,
    totalReviews] at h ⊢
  omega

theorem totalSync_removeThree (T : Nat) (s : RemovalState) (h : TotalSync T s)
    (h3 : 0 < s.tempBreakdown.three_star) :
    TotalSync T (ReviewCalc.removeThree s) := by
  dsimp only [TotalSync, ReviewCalc.removeThree, RemovedCounts.total,
    totalReviews] at h ⊢
  omega

theorem totalSync_removeFour (T : Nat) (s : RemovalState) (h : TotalSync T s)
    (h4 : 0 < s.tempBreakdown.four_star) :
    TotalSync T (ReviewCalc.removeFour s) := by
  dsimp only [TotalSync, ReviewCalc.removeFour, RemovedCounts.total,
    totalReviews] at h ⊢
  omega

theorem totalSync_removeFive (T : Nat) (s : RemovalState) (h : TotalSync T s)
    (h5 : 0 < s.tempBreakdown.five_star) :
    TotalSync T (CacheCalc.removeFive s) := by
  dsimp only [TotalSync, CacheCalc.removeFive, RemovedCounts.total,
    totalReviews] at h ⊢
  omega

/-- The `cache.ts` revision's main loop preserves `TotalSync` and only grows
the removal count. -/
theorem cacheRemovalLoop_sync (T : Nat) (targetRating : Rat) :
    ∀ (fuel : Nat) (s : RemovalState), TotalSync T s →
      TotalSync T (CacheCalc.removalLoop targetRating fuel s) ∧
        s.removed.total ≤
          (CacheCalc.removalLoop targetRating fuel s).removed.total := by
  intro fuel
  induction fuel with
  | zero => intro s h; exact ⟨h, le_refl _⟩
  | succ fuel ih =>
    intro s h
    by_cases hg : CacheCalc.loopGuard targetRating s
    · by_cases h1 : 0 < s.tempBreakdown.one_star
      · rw [CacheCalc.cLoop_succ_one targetRating fuel s hg h1]
        have := ih _ (totalSync_removeOne T s h h1)
        refine ⟨this.1, ?_⟩
        have h2 := this.2; rw [removeOne_removed_total] at h2; omega
      · by_cases h2 : 0 < s.tempBreakdown.two_star
        · rw [CacheCalc.cLoop_succ_two targetRating fuel s hg h1 h2]
          have := ih _ (totalSync_removeTwo T s h h2)
          refine ⟨this.1, ?_⟩
          have h3 := this.2; rw [removeTwo_removed_total] at h3; omega
        · by_cases h3 : 0 < s.tempBreakdown.three_star
          · rw [CacheCalc.cLoop_succ_three targetRating fuel s hg h1 h2 h3]
            have := ih _ (totalSync_removeThree T s h h3)
            refine ⟨this.1, ?_⟩
            have h4 := this.2; rw [removeThree_removed_total] at h4; omega
          · by_cases h4 : 0 < s.tempBreakdown.four_star
            · rw [CacheCalc.cLoop_succ_four targetRating fuel s hg h1 h2 h3 h4]
              have := ih _ (totalSync_removeFour T s h h4)
              refine ⟨this.1, ?_⟩
              have h5 := this.2; rw [removeFour_removed_total] at h5; omega
            · by_cases h5 : 0 < s.tempBreakdown.five_star
              · rw [CacheCalc.cLoop_succ_five targetRating fuel s hg h1 h2 h3 h4 h5]
                have := ih _ (totalSync_removeFive T s h h5)
                refine ⟨this.1, ?_⟩
                have h6 := this.2; rw [removeFive_removed_total] at h6; omega
              · rw [CacheCalc.cLoop_succ_exhausted targetRating fuel s hg h1 h2 h3 h4 h5]
                exact ⟨h, le_refl _⟩
    · rw [CacheCalc.cLoop_succ_false targetRating fuel s hg]
      exact ⟨h, le_refl _⟩

/-- Raising the target can only lengthen the `cache.ts` revision's main loop. -/
theorem cacheRemovalLoop_target_mono (T : Nat) (t1 t2 : Rat) (h12 : t1 ≤ t2) :
    ∀ (fuel : Nat) (s : RemovalState), TotalSync T s →
      (CacheCalc.removalLoop t1 fuel s).removed.total ≤
        (CacheCalc.removalLoop t2 fuel s).removed.total := by
  intro fuel
  induction fuel with
  | zero => intro s _; exact le_refl _
  | succ fuel ih =>
    intro s hsync
    by_cases hg1 : CacheCalc.loopGuard t1 s
    · have hg2 : CacheCalc.loopGuard t2 s := ⟨hg1.1, lt_of_lt_of_le hg1.2 h12⟩
      by_cases h1 : 0 < s.tempBreakdown.one_star
      · rw [CacheCalc.cLoop_succ_one t1 fuel s hg1 h1,
          CacheCalc.cLoop_succ_one t2 fuel s hg2 h1]
        exact ih _ (totalSync_removeOne T s hsync h1)
      · by_cases h2 : 0 < s.tempBreakdown.two_star
        · rw [CacheCalc.cLoop_succ_two t1 fuel s hg1 h1 h2,
            CacheCalc.cLoop_succ_two t2 fuel s hg2 h1 h2]
          exact ih _ (totalSync_removeTwo T s hsync h2)
        · by_cases h3 : 0 < s.tempBreakdown.three_star
          · rw [CacheCalc.cLoop_succ_three t1 fuel s hg1 h1 h2 h3,
              CacheCalc.cLoop_succ_three t2 fuel s hg2 h1 h2 h3]
            exact ih _ (totalSync_removeThree T s hsync h3)
          · by_cases h4 : 0 < s.tempBreakdown.four_star
            · rw [CacheCalc.cLoop_succ_four t1 fuel s hg1 h1 h2 h3 h4,
                CacheCalc.cLoop_succ_four t2 fuel s hg2 h1 h2 h3 h4]
              exact ih _ (totalSync_removeFour T s hsync h4)
            · by_cases h5 : 0 < s.tempBreakdown.five_star
              · rw [CacheCalc.cLoop_succ_five t1 fuel s hg1 h1 h2 h3 h4 h5,
                  CacheCalc.cLoop_succ_five t2 fuel s hg2 h1 h2 h3 h4 h5]
                exact ih _ (totalSync_removeFive T s hsync h5)
              · rw [CacheCalc.cLoop_succ_exhausted t1 fuel s hg1 h1 h2 h3 h4 h5,
                  CacheCalc.cLoop_succ_exhausted t2 fuel s hg2 h1 h2 h3 h4 h5]
    · rw [CacheCalc.cLoop_succ_false t1 fuel s hg1]
      exact (cacheRemovalLoop_sync T t2 (fuel + 1) s hsync).2

theorem removeOne_tempTotal (s : RemovalState) :
    (ReviewCalc.removeOne s).tempTotal = s.tempTotal - 1 := rfl

theorem removeTwo_tempTotal (s : RemovalState) :
    (ReviewCalc.removeTwo s).tempTotal = s.tempTotal - 1 := rfl

theorem removeThree_tempTotal (s : RemovalState) :
    (ReviewCalc.removeThree s).tempTotal = s.tempTotal - 1 := rfl

theorem removeFour_tempTotal (s : RemovalState) :
    (ReviewCalc.removeFour s).tempTotal = s.tempTotal - 1 := rfl

theorem removeFive_tempTotal (s : RemovalState) :
    (CacheCalc.removeFive s).tempTotal = s.tempTotal - 1 := rfl

namespace CacheCalc

theorem bufferLoop_succ_false (addl fuel n : Nat) (s : RemovalState)
    (hg : ¬ (n < addl ∧ 0 < s.tempTotal)) :
    bufferLoop addl (fuel + 1) n s = s := by
  rw [bufferLoop, if_neg hg]

theorem bufferLoop_succ_one (addl fuel n : Nat) (s : RemovalState)
    (hg : n < addl ∧ 0 < s.tempTotal) (h1 : 0 < s.tempBreakdown.one_star) :
    bufferLoop addl (fuel + 1) n s =
      bufferLoop addl fuel (n + 1) (ReviewCalc.removeOne s) := by
  rw [bufferLoop, if_pos hg, if_pos h1]

theorem bufferLoop_succ_two (addl fuel n : Nat) (s : RemovalState)
    (hg : n < addl ∧ 0 < s.tempTotal)
    (h1 : ¬ 0 < s.tempBreakdown.one_star)
    (h2 : 0 < s.tempBreakdown.two_star) :
    bufferLoop addl (fuel + 1) n s =
      bufferLoop addl fuel (n + 1) (ReviewCalc.removeTwo s) := by
  rw [bufferLoop, if_pos hg, if_neg h1, if_pos h2]

theorem bufferLoop_succ_three (addl fuel n : Nat) (s : RemovalState)
    (hg : n < addl ∧ 0 < s.tempTotal)
    (h1 : ¬ 0 < s.tempBreakdown.one_star)
    (h2 : ¬ 0 < s.tempBreakdown.two_star)
    (h3 : 0 < s.tempBreakdown.three_star) :
    bufferLoop addl (fuel + 1) n s =
      bufferLoop addl fuel (n + 1) (ReviewCalc.removeThree s) := by
  rw [bufferLoop, if_pos hg, if_neg h1, if_neg h2, if_pos h3]

theorem bufferLoop_succ_four (addl fuel n : Nat) (s : RemovalState)
    (hg : n < addl ∧ 0 < s.tempTotal)
    (h1 : ¬ 0 < s.tempBreakdown.one_star)
    (h2 : ¬ 0 < s.tempBreakdown.two_star)
    (h3 : ¬ 0 < s.tempBreakdown.three_star)
    (h4 : 0 < s.tempBreakdown.four_star) :
    bufferLoop addl (fuel + 1) n s =
      bufferLoop addl fuel (n + 1) (ReviewCalc.removeFour s) := by
  rw [bufferLoop, if_pos hg, if_neg h1, if_neg h2, if_neg h3, if_pos h4]

theorem bufferLoop_succ_five (addl fuel n : Nat) (s : RemovalState)
    (hg : n < addl ∧ 0 < s.tempTotal)
    (h1 : ¬ 0 < s.tempBreakdown.one_star)
    (h2 : ¬ 0 < s.tempBreakdown.two_star)
    (h3 : ¬ 0 < s.tempBreakdown.three_star)
    (h4 : ¬ 0 < s.tempBreakdown.four_star)
    (h5 : 0 < s.tempBreakdown.five_star) :
    bufferLoop addl (fuel + 1) n s =
      bufferLoop addl fuel (n + 1) (removeFive s) := by
  rw [bufferLoop, if_pos hg, if_neg h1, if_neg h2, if_neg h3, if_neg h4,
    if_pos h5]

end CacheCalc

/-- The buffer pass removes exactly `min additionalRemovals tempTotal` more
reviews: it runs until the extra-removal quota or the surviving reviews are
exhausted, whichever happens first. -/
theorem bufferLoop_total (T addl : Nat) :
    ∀ (fuel n : Nat) (s : RemovalState), TotalSync T s → addl - n ≤ fuel →
      (CacheCalc.bufferLoop addl fuel n s).removed.total =
        s.removed.total + min (addl - n) s.tempTotal := by
  intro fuel
  induction fuel with
  | zero =>
    intro n s _ hfuel
    simp only [CacheCalc.bufferLoop]
    omega
  | succ fuel ih =>
    intro n s hsync hfuel
    by_cases hg : n < addl ∧ 0 < s.tempTotal
    · by_cases h1 : 0 < s.tempBreakdown.one_star
      · rw [CacheCalc.bufferLoop_succ_one addl fuel n s hg h1,
          ih (n + 1) _ (totalSync_removeOne T s hsync h1) (by omega),
          removeOne_removed_total, removeOne_tempTotal]
        omega
      · by_cases h2 : 0 < s.tempBreakdown.two_star
        · rw [CacheCalc.bufferLoop_succ_two addl fuel n s hg h1 h2,
            ih (n + 1) _ (totalSync_removeTwo T s hsync h2) (by omega),
            removeTwo_removed_total, removeTwo_tempTotal]
          omega
        · by_cases h3 : 0 < s.tempBreakdown.three_star
          · rw [CacheCalc.bufferLoop_succ_three addl fuel n s hg h1 h2 h3,
              ih (n + 1) _ (totalSync_removeThree T s hsync h3) (by omega),
              removeThree_removed_total, removeThree_tempTotal]
            omega
          · by_cases h4 : 0 < s.tempBreakdown.four_star
            · rw [CacheCalc.bufferLoop_succ_four addl fuel n s hg h1 h2 h3 h4,
                ih (n + 1) _ (totalSync_removeFour T s hsync h4) (by omega),
                removeFour_removed_total, removeFour_tempTotal]
              omega
            · by_cases h5 : 0 < s.tempBreakdown.five_star
              · rw [CacheCalc.bufferLoop_succ_five addl fuel n s hg h1 h2 h3 h4 h5,
                  ih (n + 1) _ (totalSync_removeFive T s hsync h5) (by omega),
                  removeFive_removed_total, removeFive_tempTotal]
                omega
              · exfalso
                have := hsync.1
                dsimp only [totalReviews] at this
                omega
    · rw [CacheCalc.bufferLoop_succ_false addl fuel n s hg]
      omega

/-- `Math.ceil(k / 0.94)` is at least `k`. -/
theorem le_bufferedRemovals (k : Nat) : k ≤ CacheCalc.bufferedRemovals k := by
  unfold CacheCalc.bufferedRemovals
  have hx : ((k : Rat)) ≤ (k : Rat) / (94 / 100 : Rat) := by
    rw [le_div_iff₀ (by norm_num)]
    nlinarith [Rat.num_nonneg.mpr (show (0 : Rat) ≤ (k : Rat) from Nat.cast_nonneg k)]
  have hceil : ((k : Int) : Rat) ≤ ((⌈(k : Rat) / (94 / 100 : Rat)⌉ : Int) : Rat) := by
    calc ((k : Int) : Rat) = (k : Rat) := by push_cast; ring
    _ ≤ (k : Rat) / (94 / 100 : Rat) := hx
    _ ≤ _ := Int.le_ceil _
  have : (k : Int) ≤ ⌈(k : Rat) / (94 / 100 : Rat)⌉ := by exact_mod_cast hceil
  omega

/-- `Math.ceil(k / 0.94)` is monotone in `k`. -/
theorem bufferedRemovals_mono {k1 k2 : Nat} (h : k1 ≤ k2) :
    CacheCalc.bufferedRemovals k1 ≤ CacheCalc.bufferedRemovals k2 := by
  unfold CacheCalc.bufferedRemovals
  have hdiv : (k1 : Rat) / (94 / 100 : Rat) ≤ (k2 : Rat) / (94 / 100 : Rat) :=
    div_le_div_of_nonneg_right (by exact_mod_cast h) (by norm_num)
  have := Int.ceil_le_ceil hdiv
  omega

theorem totalSync_init (b : ReviewBreakdown) :
    TotalSync (totalReviews b) (ReviewCalc.initialState b) := by
  dsimp only [TotalSync, ReviewCalc.initialState, RemovedCounts.total,
    totalReviews]
  omega

/-- The removal plan of the `cache.ts` revision unfolds to the buffer loop run
on the main loop's final state. -/
theorem cacheCalc_reviewsToRemove_eq (targetRating : Rat) (b : ReviewBreakdown) :
    (CacheCalc.calculateMinimalRemovals targetRating b).reviewsToRemove =
      (CacheCalc.bufferLoop
        (CacheCalc.bufferedRemovals
            (CacheCalc.removalLoop targetRating (totalReviews b)
              (ReviewCalc.initialState b)).removed.total -
          (CacheCalc.removalLoop targetRating (totalReviews b)
            (ReviewCalc.initialState b)).removed.total)
        (CacheCalc.bufferedRemovals
            (CacheCalc.removalLoop targetRating (totalReviews b)
              (ReviewCalc.initialState b)).removed.total -
          (CacheCalc.removalLoop targetRating (totalReviews b)
            (ReviewCalc.initialState b)).removed.total)
        0
        (CacheCalc.removalLoop targetRating (totalReviews b)
          (ReviewCalc.initialState b))).removed := rfl

/-- Total removals of the `cache.ts` revision's removal plan are monotone in
the target. -/
theorem cacheCalc_total_target_mono (t1 t2 : Rat) (h12 : t1 ≤ t2)
    (b : ReviewBreakdown) :
    (CacheCalc.calculateMinimalRemovals t1 b).reviewsToRemove.total ≤
      (CacheCalc.calculateMinimalRemovals t2 b).reviewsToRemove.total := by
  have hsync0 := totalSync_init b
  have hs1 := (cacheRemovalLoop_sync (totalReviews b) t1 (totalReviews b)
    (ReviewCalc.initialState b) hsync0).1
  have hs2 := (cacheRemovalLoop_sync (totalReviews b) t2 (totalReviews b)
    (ReviewCalc.initialState b) hsync0).1
  have hk := cacheRemovalLoop_target_mono (totalReviews b) t1 t2 h12
    (totalReviews b) (ReviewCalc.initialState b) hsync0
  rw [cacheCalc_reviewsToRemove_eq t1 b, cacheCalc_reviewsToRemove_eq t2 b,
    bufferLoop_total (totalReviews b) _ _ 0 _ hs1 (by omega),
    bufferLoop_total (totalReviews b) _ _ 0 _ hs2 (by omega)]
  have hb1 := le_bufferedRemovals
    (CacheCalc.removalLoop t1 (totalReviews b)
      (ReviewCalc.initialState b)).removed.total
  have hb2 := le_bufferedRemovals
    (CacheCalc.removalLoop t2 (totalReviews b)
      (ReviewCalc.initialState b)).removed.total
  have hbm := bufferedRemovals_mono hk
  have he1 := hs1.2
  have he2 := hs2.2
  omega

namespace CacheCalc

theorem additionsLoop_succ_stop (tempScore tempTotal : Nat) (targetRating : Rat)
    (fuel n : Nat) (hg : ¬ additionsGuard tempScore tempTotal targetRating n) :
    additionsLoop tempScore tempTotal targetRating (fuel + 1) n = n := by
  rw [additionsLoop, if_neg hg]

theorem additionsLoop_succ_ceiling (tempScore tempTotal : Nat)
    (targetRating : Rat) (fuel n : Nat)
    (hg : additionsGuard tempScore tempTotal targetRating n)
    (hn : 1000 < n + 1) :
    additionsLoop tempScore tempTotal targetRating (fuel + 1) n = n + 1 := by
  rw [additionsLoop, if_pos hg, if_pos hn]

theorem additionsLoop_succ_go (tempScore tempTotal : Nat) (targetRating : Rat)
    (fuel n : Nat) (hg : additionsGuard tempScore tempTotal targetRating n)
    (hn : ¬ 1000 < n + 1) :
    additionsLoop tempScore tempTotal targetRating (fuel + 1) n =
      additionsLoop tempScore tempTotal targetRating fuel (n + 1) := by
  rw [additionsLoop, if_pos hg, if_neg hn]

/-- The additions counter never exceeds 1001: the loop breaks as soon as the
counter passes the hard ceiling of 1000. -/
theorem additionsLoop_le (tempScore tempTotal : Nat) (targetRating : Rat) :
    ∀ (fuel n : Nat), n ≤ 1000 →
      additionsLoop tempScore tempTotal targetRating fuel n ≤ 1001 := by
  intro fuel
  induction fuel with
  | zero => intro n hn; simpa only [additionsLoop] using by omega
  | succ fuel ih =>
    intro n hn
    by_cases hg : additionsGuard tempScore tempTotal targetRating n
    · by_cases hstop : 1000 < n + 1
      · rw [additionsLoop_succ_ceiling tempScore tempTotal targetRating fuel n hg hstop]
        omega
      · rw [additionsLoop_succ_go tempScore tempTotal targetRating fuel n hg hstop]
        exact ih (n + 1) (by omega)
    · rw [additionsLoop_succ_stop tempScore tempTotal targetRating fuel n hg]
      omega

/-- Any fuel of at least `1001 - n` computes the same value as any other: the
loop needs at most that many iterations before it stops on its own or hits the
ceiling, so the while loop is simulated exactly and terminates on every
input. -/
theorem additionsLoop_fuel_irrelevant (tempScore tempTotal : Nat)
    (targetRating : Rat) :
    ∀ (f1 f2 n : Nat), n ≤ 1000 → 1001 - n ≤ f1 → 1001 - n ≤ f2 →
      additionsLoop tempScore tempTotal targetRating f1 n =
        additionsLoop tempScore tempTotal targetRating f2 n := by
  intro f1
  induction f1 with
  | zero => intro f2 n hn hf1 hf2; omega
  | succ f1 ih =>
    intro f2 n hn hf1 hf2
    cases f2 with
    | zero => omega
    | succ f2 =>
      by_cases hg : additionsGuard tempScore tempTotal targetRating n
      · by_cases hstop : 1000 < n + 1
        · rw [additionsLoop_succ_ceiling tempScore tempTotal targetRating f1 n hg hstop,
            additionsLoop_succ_ceiling tempScore tempTotal targetRating f2 n hg hstop]
        · rw [additionsLoop_succ_go tempScore tempTotal targetRating f1 n hg hstop,
            additionsLoop_succ_go tempScore tempTotal targetRating f2 n hg hstop]
          exact ih f2 (n + 1) (by omega) (by omega) (by omega)
      · rw [additionsLoop_succ_stop tempScore tempTotal targetRating f1 n hg,
          additionsLoop_succ_stop tempScore tempTotal targetRating f2 n hg]

end CacheCalc

/-!
Remaining shared helper lemmas used by the claim theorems below.
-/

/-- The removal record of the main optimizer's result is the final loop
state's `removed` record. -/
theorem reviewCalc_reviewsToRemove_eq (targetRating : Rat) (b : ReviewBreakdown) :
    (ReviewCalc.calculateMinimalRemovals targetRating b).reviewsToRemove =
      (ReviewCalc.removalLoop targetRating (totalReviews b)
        (ReviewCalc.initialState b)).removed := rfl

/-- A positive explicit TTL is used verbatim by `set` (only 0 falls back to
the default, because of the `ttl || default` truthiness test). -/
theorem effectiveTTL_of_pos (ttl : Nat) (h : 0 < ttl) :
    ServerCache.effectiveTTL (some ttl) = ttl := by
  simp only [ServerCache.effectiveTTL]
  rw [if_neg (by omega)]

/-- `set` stores the entry with expiry `now + ttl` under its own key. -/
theorem set_lookup_self (α : Type) (m : CacheMap α) (now : Nat) (key : String)
    (v : α) (ttl : Nat) (h : 0 < ttl) :
    ServerCache.set m now key v (some ttl) key = some ⟨v, now, now + ttl⟩ := by
  unfold ServerCache.set
  rw [if_pos rfl, effectiveTTL_of_pos ttl h]

/-- `get` on an absent key returns `none` and leaves the map unchanged. -/
theorem get_of_missing (α : Type) (m : CacheMap α) (now : Nat) (key : String)
    (h : m key = none) : ServerCache.get m now key = (none, m) := by
  unfold ServerCache.get
  rw [h]

/-- When every upstream call fails, the category phase walks its whole table
and ends by caching the empty outcome with the short TTL. -/
theorem categoryPhase_all_error (β : Type)
    (oracle : SearchApi.SearchRequest → Except Unit (List β))
    (m : CacheMap (SearchApi.SearchOutcome β)) (now : Nat) (cacheKey : String)
    (queryLower : List Char) (herr : ∀ req, oracle req = .error ()) :
    ∀ maps, SearchApi.categoryPhase oracle m now cacheKey queryLower maps =
      (⟨[], "none"⟩, ServerCache.set m now cacheKey ⟨[], "none"⟩
        (some SearchApi.emptyResultTTL)) := by
  intro maps
  induction maps with
  | nil => rfl
  | cons p rest ih =>
    obtain ⟨term, cats⟩ := p
    by_cases hs : SearchApi.hasSub queryLower term.data
    · simp only [SearchApi.categoryPhase, hs, if_true, herr (.category cats)]
      exact ih
    · simp only [SearchApi.categoryPhase, hs, if_false]
      exact ih

/-!
Claim theorems.
-/

/-- C1: for every plan produced by the `reviewCalculations.ts`
`calculateReviewsToRemove` (whose removal computation is
`calculateMinimalRemovals`), the five-star removal count is always 0, for any
breakdown and any target rating. -/
theorem C1_never_remove_five_star_main (currentRating targetRating : Rat)
    (b : ReviewBreakdown) :
    (ReviewCalc.calculateReviewsToRemove currentRating targetRating
      b).reviewsToRemove.fiveStar = 0 := by
  have h := (ReviewCalc.removalLoop_inv b targetRating (totalReviews b)
    (ReviewCalc.initialState b) (greedyInv_init b)).1
  obtain ⟨-, -, -, -, -, -, -, hfive, -, -, -⟩ := h
  exact hfive

/-- C1 counterexample: the `cache.ts` revision of `calculateReviewsToRemove`
(also cited by the claim) produces, for the breakdown with one 1-star and five
5-star reviews and target 4.5, a plan with strategy `remove` whose five-star
removal count is 1: its 94 percent buffer pass removes a five-star review. -/
theorem C1_cache_variant_counterexample :
    (CacheCalc.calculateReviewsToRemove (9/2) (9/2)
      ⟨1, 0, 0, 0, 5⟩).strategy = "remove" ∧
    (CacheCalc.calculateReviewsToRemove (9/2) (9/2)
      ⟨1, 0, 0, 0, 5⟩).reviewsToRemove.fiveStar = 1 := by
  with_unfolding_all decide

/-- C2: minimality of the `reviewCalculations.ts` removal plan: any valid
alternative removal vector (taken from any tiers, within the breakdown's
counts) that reaches the target removes at least as many reviews as the plan
produced by `calculateReviewsToRemove`. -/
theorem C2_minimal_removals_main (currentRating targetRating : Rat)
    (b : ReviewBreakdown) (r : RemovedCounts) (hv : ValidRemoval r b)
    (hr : ReachesTarget b r targetRating) :
    (ReviewCalc.calculateReviewsToRemove currentRating targetRating
      b).reviewsToRemove.total ≤ r.total := by
  show (ReviewCalc.removalLoop targetRating (totalReviews b)
    (ReviewCalc.initialState b)).removed.total ≤ r.total
  exact removalLoop_min b targetRating r hv hr (totalReviews b)
    (ReviewCalc.initialState b) (greedyInv_init b)
    (by dsimp only [ReviewCalc.initialState, RemovedCounts.total]; omega)

theorem C2_minimal_removals_main_witness :
    ValidRemoval ⟨2, 0, 0, 0, 0⟩ ⟨2, 0, 0, 0, 2⟩ ∧
    ReachesTarget ⟨2, 0, 0, 0, 2⟩ ⟨2, 0, 0, 0, 0⟩ 4 ∧
    (ReviewCalc.calculateReviewsToRemove 3 4
        ⟨2, 0, 0, 0, 2⟩).reviewsToRemove.total ≤
      (⟨2, 0, 0, 0, 0⟩ : RemovedCounts).total :=
  ⟨by with_unfolding_all decide, by with_unfolding_all decide,
    C2_minimal_removals_main 3 4 ⟨2, 0, 0, 0, 2⟩ ⟨2, 0, 0, 0, 0⟩
      (by with_unfolding_all decide) (by with_unfolding_all decide)⟩

/-- C2 counterexample: the `cache.ts` revision (also cited by the claim) is
not minimal: for one 1-star and five 5-star reviews and target 4.5 it returns
a remove-strategy plan deleting 2 reviews, while the valid alternative that
deletes only the single 1-star review already reaches the target. -/
theorem C2_cache_variant_counterexample :
    (CacheCalc.calculateReviewsToRemove (9/2) (9/2)
      ⟨1, 0, 0, 0, 5⟩).strategy = "remove" ∧
    (CacheCalc.calculateReviewsToRemove (9/2) (9/2)
      ⟨1, 0, 0, 0, 5⟩).reviewsToRemove.total = 2 ∧
    ValidRemoval ⟨1, 0, 0, 0, 0⟩ ⟨1, 0, 0, 0, 5⟩ ∧
    ReachesTarget ⟨1, 0, 0, 0, 5⟩ ⟨1, 0, 0, 0, 0⟩ (9/2) ∧
    (⟨1, 0, 0, 0, 0⟩ : RemovedCounts).total = 1 := by
  with_unfolding_all decide

/-- C3 counterexample: for the breakdown with a single 1-star review and
target 4, the removal plan edits 1 review and the addition plan edits 3, yet
`calculateReviewsToRemove` returns the addition plan (the projected-rating
guard applies in all cases, not only on ties), refuting the claim that the
plan with strictly fewer edited reviews is returned. -/
theorem C3_fewer_edits_counterexample :
    (CacheCalc.calculateMinimalRemovals 4 ⟨1, 0, 0, 0, 0⟩).reviewsToRemove.total
        = 1 ∧
    (CacheCalc.calculateAdditions 4 ⟨1, 0, 0, 0, 0⟩).reviewsToAdd.fiveStar = 3 ∧
    (CacheCalc.calculateReviewsToRemove 1 4 ⟨1, 0, 0, 0, 0⟩).strategy = "add" := by
  with_unfolding_all decide

/-- C3 amended: `calculateReviewsToRemove` of the `cache.ts` revision returns
the removal plan exactly when the removal plan's total edits are at most the
addition plan's total edits AND the removal plan's projected rating meets the
target; in every other case (including a removal plan with strictly fewer
edits that undershoots the target) the addition plan is returned. -/
theorem C3_selection_rule_amended (currentRating targetRating : Rat)
    (b : ReviewBreakdown) :
    CacheCalc.calculateReviewsToRemove currentRating targetRating b =
      (if (CacheCalc.calculateMinimalRemovals targetRating
              b).reviewsToRemove.total ≤
            (CacheCalc.calculateAdditions targetRating b).reviewsToAdd.fiveStar ∧
          targetRating ≤
            (CacheCalc.calculateMinimalRemovals targetRating b).projectedRating
        then CacheCalc.calculateMinimalRemovals targetRating b
        else CacheCalc.calculateAdditions targetRating b) ∧
    ((CacheCalc.calculateReviewsToRemove currentRating targetRating b).strategy
        = "remove" ↔
      (CacheCalc.calculateMinimalRemovals targetRating b).reviewsToRemove.total ≤
          (CacheCalc.calculateAdditions targetRating b).reviewsToAdd.fiveStar ∧
        targetRating ≤
          (CacheCalc.calculateMinimalRemovals targetRating b).projectedRating) := by
  refine ⟨rfl, ?_⟩
  by_cases hc :
      (CacheCalc.calculateMinimalRemovals targetRating b).reviewsToRemove.total ≤
          (CacheCalc.calculateAdditions targetRating b).reviewsToAdd.fiveStar ∧
        targetRating ≤
          (CacheCalc.calculateMinimalRemovals targetRating b).projectedRating
  · rw [show CacheCalc.calculateReviewsToRemove currentRating targetRating b =
        CacheCalc.calculateMinimalRemovals targetRating b from by
      show (if _ then _ else _) = _
      rw [if_pos hc]]
    exact ⟨fun _ => hc, fun _ => rfl⟩
  · rw [show CacheCalc.calculateReviewsToRemove currentRating targetRating b =
        CacheCalc.calculateAdditions targetRating b from by
      show (if _ then _ else _) = _
      rw [if_neg hc]]
    have hstr : (CacheCalc.calculateAdditions targetRating b).strategy = "add" :=
      rfl
    rw [hstr]
    exact ⟨fun h => absurd h (by decide), fun h => absurd h hc⟩

/-- C4 (amended to positive TTLs): immediately after `set(k, v, ttl)` with
`ttl > 0`, `get(k)` returns `v`; once the clock passes `set time + ttl`,
`get(k)` returns `null` and, as a side effect of that same `get`, the expired
entry is evicted from the map. -/
theorem C4_cache_roundtrip_positive_ttl (α : Type) (m : CacheMap α)
    (now : Nat) (key : String) (v : α) (ttl : Nat) (h : 0 < ttl) :
    (ServerCache.get (ServerCache.set m now key v (some ttl)) now key).1 =
        some v ∧
    ∀ now2, now + ttl < now2 →
      (ServerCache.get (ServerCache.set m now key v (some ttl)) now2 key).1 =
          none ∧
      (ServerCache.get (ServerCache.set m now key v (some ttl)) now2 key).2 key =
          none := by
  have hset := set_lookup_self α m now key v ttl h
  constructor
  · unfold ServerCache.get
    rw [hset]
    dsimp only
    rw [if_neg (by omega)]
  · intro now2 h2
    unfold ServerCache.get
    rw [hset]
    dsimp only
    rw [if_pos (by omega)]
    exact ⟨rfl, by simp [ServerCache.mapDelete]⟩

theorem C4_cache_roundtrip_positive_ttl_witness :
    (0 : Nat) < 5 ∧
    (ServerCache.get (ServerCache.set (fun _ => none) 0 "k" (7 : Nat) (some 5))
      0 "k").1 = some 7 ∧
    (ServerCache.get (ServerCache.set (fun _ => none) 0 "k" (7 : Nat) (some 5))
      6 "k").1 = none ∧
    (ServerCache.get (ServerCache.set (fun _ => none) 0 "k" (7 : Nat) (some 5))
      6 "k").2 "k" = none := by
  refine ⟨by decide, ?_, ?_, ?_⟩
  · exact (C4_cache_roundtrip_positive_ttl Nat (fun _ => none) 0 "k" 7 5
      (by decide)).1
  · exact ((C4_cache_roundtrip_positive_ttl Nat (fun _ => none) 0 "k" 7 5
      (by decide)).2 6 (by decide)).1
  · exact ((C4_cache_roundtrip_positive_ttl Nat (fun _ => none) 0 "k" 7 5
      (by decide)).2 6 (by decide)).2

/-- C4 counterexample: with `ttl = 0` the claim fails: `set` computes
`ttl || defaultTTL`, and 0 is falsy in JavaScript, so the entry is stored with
the 24-hour default expiry; after the wall clock passes `set time + ttl = 0`,
`get` still returns the value instead of absent. -/
theorem C4_zero_ttl_counterexample :
    0 + 0 < 1 ∧
    (ServerCache.get (ServerCache.set (fun _ => none) 0 "k" (7 : Nat) (some 0))
      1 "k").1 = some 7 := by
  with_unfolding_all decide

/-- C5: for a fixed breakdown, a higher target never removes fewer reviews:
both for the `reviewCalculations.ts` optimizer's plan and for the `cache.ts`
revision's removal plan (`calculateMinimalRemovals`). -/
theorem C5_removals_monotone_in_target (currentRating t1 t2 : Rat)
    (b : ReviewBreakdown) (h12 : t1 ≤ t2) :
    (ReviewCalc.calculateReviewsToRemove currentRating t1
        b).reviewsToRemove.total ≤
      (ReviewCalc.calculateReviewsToRemove currentRating t2
        b).reviewsToRemove.total ∧
    (CacheCalc.calculateMinimalRemovals t1 b).reviewsToRemove.total ≤
      (CacheCalc.calculateMinimalRemovals t2 b).reviewsToRemove.total := by
  constructor
  · show (ReviewCalc.removalLoop t1 (totalReviews b)
        (ReviewCalc.initialState b)).removed.total ≤
      (ReviewCalc.removalLoop t2 (totalReviews b)
        (ReviewCalc.initialState b)).removed.total
    exact removalLoop_total_target_mono t1 t2 h12 (totalReviews b)
      (ReviewCalc.initialState b)
  · exact cacheCalc_total_target_mono t1 t2 h12 b

theorem C5_removals_monotone_in_target_witness :
    (4 : Rat) ≤ 9/2 ∧
    (ReviewCalc.calculateReviewsToRemove 4 4
        ⟨1, 0, 0, 0, 5⟩).reviewsToRemove.total ≤
      (ReviewCalc.calculateReviewsToRemove 4 (9/2)
        ⟨1, 0, 0, 0, 5⟩).reviewsToRemove.total ∧
    (CacheCalc.calculateMinimalRemovals 4 ⟨1, 0, 0, 0, 5⟩).reviewsToRemove.total ≤
      (CacheCalc.calculateMinimalRemovals (9/2)
        ⟨1, 0, 0, 0, 5⟩).reviewsToRemove.total :=
  ⟨by with_unfolding_all decide,
    (C5_removals_monotone_in_target 4 4 (9/2) ⟨1, 0, 0, 0, 5⟩
      (by with_unfolding_all decide)).1,
    (C5_removals_monotone_in_target 4 4 (9/2) ⟨1, 0, 0, 0, 5⟩
      (by with_unfolding_all decide)).2⟩

/-- C6: the additive variant is total: for any fuel of at least 1002 the
fuel-indexed loop computes the very value `calculateAdditions` returns (the
while loop stabilizes — it cannot run longer), and the returned counter never
exceeds 1001, because the loop increments from 0 until the average reaches the
target and breaks as soon as the counter passes the hard ceiling of 1000. -/
theorem C6_additions_terminate_bounded (targetRating : Rat)
    (b : ReviewBreakdown) (fuel : Nat) (hfuel : 1002 ≤ fuel) :
    CacheCalc.additionsLoop (currentScore b) (totalReviews b) targetRating
        fuel 0 =
      (CacheCalc.calculateAdditions targetRating b).reviewsToAdd.fiveStar ∧
    (CacheCalc.calculateAdditions targetRating b).reviewsToAdd.fiveStar ≤
      1001 := by
  have hproj : (CacheCalc.calculateAdditions targetRating b).reviewsToAdd.fiveStar
      = CacheCalc.additionsLoop (currentScore b) (totalReviews b) targetRating
          1002 0 := rfl
  constructor
  · rw [hproj]
    exact CacheCalc.additionsLoop_fuel_irrelevant (currentScore b)
      (totalReviews b) targetRating fuel 1002 0 (by omega) (by omega) (by omega)
  · rw [hproj]
    exact CacheCalc.additionsLoop_le (currentScore b) (totalReviews b)
      targetRating 1002 0 (by omega)

theorem C6_additions_terminate_bounded_witness :
    (1002 : Nat) ≤ 1500 ∧
    CacheCalc.additionsLoop (currentScore ⟨1, 0, 0, 0, 0⟩)
        (totalReviews ⟨1, 0, 0, 0, 0⟩) 3 1500 0 =
      (CacheCalc.calculateAdditions 3 ⟨1, 0, 0, 0, 0⟩).reviewsToAdd.fiveStar ∧
    (CacheCalc.calculateAdditions 3 ⟨1, 0, 0, 0, 0⟩).reviewsToAdd.fiveStar ≤
      1001 :=
  ⟨by decide,
    (C6_additions_terminate_bounded 3 ⟨1, 0, 0, 0, 0⟩ 1500 (by decide)).1,
    (C6_additions_terminate_bounded 3 ⟨1, 0, 0, 0, 0⟩ 1500 (by decide)).2⟩

/-- C7: failure semantics of the cascade, for any upstream oracle and any
cache state with no entry for the derived key.  (a) If every upstream call
fails, `performCascadingSearch` returns the empty outcome (not an error) and
caches it under the derived key with expiry `now + 1 hour`.  (b) If the title
call fails but the description call succeeds with a non-empty list, the
cascade falls through and returns the description outcome, cached with expiry
`now + 24 hours`.  (c) The empty-result TTL (1 hour) is strictly shorter than
the non-empty-result TTL (24 hours). -/
theorem C7_cascade_failure_semantics (β : Type)
    (oracle : SearchApi.SearchRequest → Except Unit (List β))
    (m : CacheMap (SearchApi.SearchOutcome β)) (now : Nat)
    (query postalCode : String)
    (hmiss : m (ServerCache.generateBusinessSearchKey query postalCode) = none) :
    ((∀ req, oracle req = .error ()) →
      SearchApi.performCascadingSearch oracle m now query postalCode false =
        (⟨[], "none"⟩,
          ServerCache.set m now
            (ServerCache.generateBusinessSearchKey query postalCode)
            ⟨[], "none"⟩ (some SearchApi.emptyResultTTL)) ∧
      (SearchApi.performCascadingSearch oracle m now query postalCode false).2
          (ServerCache.generateBusinessSearchKey query postalCode) =
        some ⟨⟨[], "none"⟩, now, now + SearchApi.emptyResultTTL⟩) ∧
    (∀ l : List β, oracle (.title query) = .error () →
      oracle (.description query) = .ok l → 0 < l.length →
      SearchApi.performCascadingSearch oracle m now query postalCode false =
        (⟨l, "description"⟩,
          ServerCache.set m now
            (ServerCache.generateBusinessSearchKey query postalCode)
            ⟨l, "description"⟩ (some SearchApi.fullResultTTL)) ∧
      (SearchApi.performCascadingSearch oracle m now query postalCode false).2
          (ServerCache.generateBusinessSearchKey query postalCode) =
        some ⟨⟨l, "description"⟩, now, now + SearchApi.fullResultTTL⟩) ∧
    SearchApi.emptyResultTTL < SearchApi.fullResultTTL := by
  have hget := get_of_missing _ m now
    (ServerCache.generateBusinessSearchKey query postalCode) hmiss
  refine ⟨?_, ?_, by decide⟩
  · intro herr
    have heq : SearchApi.performCascadingSearch oracle m now query postalCode
        false =
        (⟨[], "none"⟩,
          ServerCache.set m now
            (ServerCache.generateBusinessSearchKey query postalCode)
            ⟨[], "none"⟩ (some SearchApi.emptyResultTTL)) := by
      simp only [SearchApi.performCascadingSearch, Bool.false_eq_true, if_false,
        hget, herr]
      exact categoryPhase_all_error β oracle m now _ query.toLower.data herr
        SearchApi.categoryMappings
    refine ⟨heq, ?_⟩
    rw [heq]
    exact set_lookup_self _ m now _ _ SearchApi.emptyResultTTL (by decide)
  · intro l ht hd hl
    have heq : SearchApi.performCascadingSearch oracle m now query postalCode
        false =
        (⟨l, "description"⟩,
          ServerCache.set m now
            (ServerCache.generateBusinessSearchKey query postalCode)
            ⟨l, "description"⟩ (some SearchApi.fullResultTTL)) := by
      simp only [SearchApi.performCascadingSearch, Bool.false_eq_true, if_false,
        hget, ht, hd, hl, if_true]
    refine ⟨heq, ?_⟩
    rw [heq]
    exact set_lookup_self _ m now _ _ SearchApi.fullResultTTL (by decide)

theorem C7_cascade_failure_semantics_witness :
    ((fun _ => none : CacheMap (SearchApi.SearchOutcome Nat))
        (ServerCache.generateBusinessSearchKey "pizza" "10") = none) ∧
    (SearchApi.performCascadingSearch
        (fun _ => Except.error () :
          SearchApi.SearchRequest → Except Unit (List Nat))
        (fun _ => none) 0 "pizza" "10" false =
      (⟨[], "none"⟩,
        ServerCache.set (fun _ => none) 0
          (ServerCache.generateBusinessSearchKey "pizza" "10")
          ⟨[], "none"⟩ (some SearchApi.emptyResultTTL))) ∧
    (SearchApi.performCascadingSearch
        (fun req => match req with
          | .title _ => Except.error ()
          | _ => Except.ok [7] :
          SearchApi.SearchRequest → Except Unit (List Nat))
        (fun _ => none) 0 "pizza" "10" false =
      (⟨[7], "description"⟩,
        ServerCache.set (fun _ => none) 0
          (ServerCache.generateBusinessSearchKey "pizza" "10")
          ⟨[7], "description"⟩ (some SearchApi.fullResultTTL))) ∧
    SearchApi.emptyResultTTL < SearchApi.fullResultTTL := by
  refine ⟨rfl, ?_, ?_, by decide⟩
  · exact ((C7_cascade_failure_semantics Nat (fun _ => Except.error ())
      (fun _ => none) 0 "pizza" "10" rfl).1 (fun _ => rfl)).1
  · exact (((C7_cascade_failure_semantics Nat
      (fun req => match req with
        | .title _ => Except.error ()
        | _ => Except.ok [7])
      (fun _ => none) 0 "pizza" "10" rfl).2.1 [7] rfl rfl (by decide))).1

/-- C8: the distribution is authoritative — the caller-supplied scalar
`currentRating` has no influence: both optimizer revisions return identical
results for any two values of it, for every breakdown and target. -/
theorem C8_current_rating_ignored (cr1 cr2 targetRating : Rat)
    (b : ReviewBreakdown) :
    ReviewCalc.calculateReviewsToRemove cr1 targetRating b =
        ReviewCalc.calculateReviewsToRemove cr2 targetRating b ∧
      CacheCalc.calculateReviewsToRemove cr1 targetRating b =
        CacheCalc.calculateReviewsToRemove cr2 targetRating b :=
  ⟨rfl, rfl⟩

/-- C9: cache key disjointness — the geocoding key of any string never equals
the business-search key built from the same string and any second string,
because the two key builders emit the disjoint prefixes `geo:` and
`search:`. -/
theorem C9_key_prefixes_disjoint (x y : String) :
    ServerCache.generateGeocodingKey x ≠
      ServerCache.generateBusinessSearchKey x y := by
  unfold ServerCache.generateGeocodingKey ServerCache.generateBusinessSearchKey
  intro h
  have hd := congrArg String.data h
  simp only [String.data_append] at hd
  simp at hd

/-- C10: `has` and `get` agree on presence: they evict identically (equal
resulting maps), `has` answers true exactly when `get` returns a payload, and
both report presence exactly when an entry exists whose expiry has not passed;
moreover, when payloads are nullable, `has = true` with `get` reporting the
JavaScript-visible `null` forces the stored payload itself to be `null`. -/
theorem C10_has_get_agreement :
    (∀ (α : Type) (m : CacheMap α) (now : Nat) (key : String),
      (ServerCache.has m now key).2 = (ServerCache.get m now key).2 ∧
      ((ServerCache.has m now key).1 = true ↔
        ∃ d, (ServerCache.get m now key).1 = some d) ∧
      ((ServerCache.has m now key).1 = true ↔
        ∃ e, m key = some e ∧ ¬ e.expiresAt < now)) ∧
    (∀ (β : Type) (m : CacheMap (Option β)) (now : Nat) (key : String),
      (ServerCache.has m now key).1 = true →
      (ServerCache.get m now key).1.join = none →
      ∃ e, m key = some e ∧ e.data = none) := by
  constructor
  · intro α m now key
    unfold ServerCache.has ServerCache.get
    cases hm : m key with
    | none => simp
    | some e =>
      by_cases he : e.expiresAt < now
      · simp [he]
      · simp [he]
        omega
  · intro β m now key h1 h2
    unfold ServerCache.has at h1
    unfold ServerCache.get at h2
    cases hm : m key with
    | none => rw [hm] at h1; simp at h1
    | some e =>
      rw [hm] at h1 h2
      dsimp only at h1 h2
      by_cases he : e.expiresAt < now
      · rw [if_pos he] at h1; simp at h1
      · rw [if_neg he] at h2
        simp only [Option.join] at h2
        exact ⟨e, rfl, by simpa using h2⟩

theorem C10_has_get_agreement_witness :
    (ServerCache.has
        (fun k => if k = "k" then some ⟨(none : Option Nat), 0, 10⟩ else none :
          CacheMap (Option Nat))
        5 "k").1 = true ∧
    (ServerCache.get
        (fun k => if k = "k" then some ⟨(none : Option Nat), 0, 10⟩ else none :
          CacheMap (Option Nat))
        5 "k").1.join = none ∧
    ∃ e, (fun k => if k = "k" then some ⟨(none : Option Nat), 0, 10⟩ else none :
          CacheMap (Option Nat)) "k" = some e ∧ e.data = none := by
  refine ⟨by decide, by decide, ?_⟩
  exact C10_has_get_agreement.2 Nat
    (fun k => if k = "k" then some ⟨(none : Option Nat), 0, 10⟩ else none)
    5 "k" (by decide) (by decide)
